import Mathlib

/-!
Shallow embedding of `src/app.py`, a Flask essay-generator web application.

The embedded parts are the program's own logic:
  * the conversation buffer (`collections.deque(maxlen=5)`) and how
    `generate_essay` appends the (user, assistant) exchange to it;
  * the message list `generate_essay` builds for the completion API;
  * the upload branch of the `index` handler (extension dispatch and the
    mutation of `uploaded_document`);
  * the `remove_file` handler;
  * the `download_essay` handler;
  * `markdown_to_docx`: the walk over the parsed HTML tree that emits
    headings / paragraphs / list items / tables into a document object.

External collaborators (the Markdown-to-HTML renderer, the HTML parser, the
PDF/DOCX extractors, the remote completion API) are not repository code; they
enter as oracle parameters or as concretely modelled values, each marked
`Modelled from the spec:`.
-/

/-- A role-tagged chat message, as the dicts
`{"role": ..., "content": ...}` in `app.py`. -/
structure Msg where
  role : String
  content : String
deriving DecidableEq

/-- `{"role": "user", "content": c}` -/
def mkUser (c : String) : Msg := ⟨"user", c⟩

/-- `{"role": "assistant", "content": c}` -/
def mkAssistant (c : String) : Msg := ⟨"assistant", c⟩

/-- ASCII apostrophe, used inside the system prompt string. -/
def apos : String := String.singleton (Char.ofNat 39)

/-- The fixed system instruction of `generate_essay` (app.py lines 78-87),
with the source's (mis)placed quotes reproduced verbatim. -/
def system_message_content : String :=
  "You are an AI essay writer. Write detailed, structured essays in Markdown format. "
    ++ "Include headings, subheadings, bullet points, and tables where relevant. "
    ++ "If a document is provided, answer ONLY using the document. "
    ++ "If info is missing, say " ++ apos ++ "Not enough info in the document."
    ++ "if only word is given then generate essay based on that word." ++ apos

/-- The system message dict of `generate_essay`. -/
def system_message : Msg := ⟨"system", system_message_content⟩

/-- One right-append to a `collections.deque(maxlen=n)`: when the length
would exceed `n`, the oldest (leftmost) elements are discarded. -/
def dequeAppend (maxlen : Nat) (buf : List Msg) (m : Msg) : List Msg :=
  if (buf ++ [m]).length > maxlen then
    (buf ++ [m]).drop ((buf ++ [m]).length - maxlen)
  else buf ++ [m]

/-- The two `conversation_buffer.append` calls of `generate_essay`
(app.py lines 107-108): user topic, then assistant essay, into the
`deque(maxlen=5)` of line 27. -/
def generateStep (buf : List Msg) (topic essay : String) : List Msg :=
  dequeAppend 5 (dequeAppend 5 buf (mkUser topic)) (mkAssistant essay)

/-- The message list `generate_essay` sends to the completion API
(app.py lines 89-96). `dc` is the `document_content` parameter; Python
truthiness makes `None` and the empty string take the topic-only branch. -/
def buildMessages (buffer : List Msg) (topic : String) (dc : Option String) :
    List Msg :=
  let messages := system_message :: buffer
  match dc with
  | some d =>
      if d = "" then messages ++ [mkUser topic]
      else
        messages ++ [mkUser ("[DOCUMENT CONTENT]\n" ++ d),
                     mkUser ("Write an essay on: " ++ topic)]
  | none => messages ++ [mkUser topic]

/-- Python's `str.lower()` (ASCII case folding, character by character). -/
def strLower (s : String) : String := String.mk (s.data.map Char.toLower)

/-- Python's `str.endswith(suffix)`. -/
def strEndsWith (s suffix : String) : Bool := suffix.data.isSuffixOf s.data

/-- The `uploaded_document` dict (app.py line 33). -/
structure UploadedDocument where
  content : Option String
  filename : Option String
deriving DecidableEq

/-- The upload branch of the `index` handler (app.py lines 158-167).
`file` is the uploaded file's name (`none` when no file part is present);
`epdf` / `edocx` stand for what `extract_pdf_content` / `extract_docx_content`
(external parsing libraries) would return on the file's bytes. -/
def uploadStep (st : UploadedDocument) (file : Option String)
    (epdf edocx : String) : UploadedDocument :=
  match file with
  | none => st
  | some f =>
      if f = "" then st
      else
        let document_content : Option String :=
          if strEndsWith (strLower f) ".pdf" then some epdf
          else if strEndsWith (strLower f) ".docx" then some edocx
          else none
        { content := document_content, filename := some f }

/-- The truthiness test `if uploaded_document["content"]:` (app.py line 170)
deciding whether `generate_essay` receives the document text. -/
def genDocArg (d : UploadedDocument) : Option String :=
  match d.content with
  | some c => if c = "" then none else some c
  | none => none

/-- The process-global mutable state of `app.py`:
`conversation_buffer` (line 27), `latest_essay` (line 30),
`uploaded_document` (line 33). -/
structure AppState where
  conversation_buffer : List Msg
  latest_essay : String
  uploaded_document : UploadedDocument

/-- The `remove_file` handler (app.py lines 188-196): clears the uploaded
document and the conversation buffer; touches nothing else. -/
def remove_file (st : AppState) : AppState :=
  { st with
      uploaded_document := { content := none, filename := none },
      conversation_buffer := [] }

/-- A node of the parsed HTML tree (`BeautifulSoup`): an element with a tag
name and children, or a bare text node (whose `.name` is `None`). -/
inductive Html where
  | elem (tag : String) (children : List Html)
  | text (s : String)

mutual

/-- `elem.get_text()`: concatenation of every text node in the subtree. -/
def Html.getText : Html → String
  | Html.text s => s
  | Html.elem _ cs => Html.getTextList cs

/-- `get_text` over a child list. -/
def Html.getTextList : List Html → String
  | [] => ""
  | c :: cs => Html.getText c ++ Html.getTextList cs

end

mutual

/-- All nodes of a subtree in document (pre-)order, the node itself first,
as `soup.descendants` enumerates them (the root included here). -/
def Html.selfAndDescendants : Html → List Html
  | Html.text s => [Html.text s]
  | Html.elem t cs => Html.elem t cs :: Html.descList cs

/-- Document-order node list of a forest: for a list of top-level nodes this
is exactly what `soup.descendants` yields. -/
def Html.descList : List Html → List Html
  | [] => []
  | c :: cs => Html.selfAndDescendants c ++ Html.descList cs

end

/-- Whether a node is an element whose tag is in `tags`
(a text node's `.name` is `None` and never matches). -/
def Html.hasTagIn (tags : List String) : Html → Bool
  | Html.elem t _ => tags.contains t
  | Html.text _ => false

/-- `elem.find_all(tags)`: every descendant element whose tag is in `tags`,
in document order (the element itself excluded). -/
def Html.findAll (tags : List String) : Html → List Html
  | Html.text _ => []
  | Html.elem _ cs => (Html.descList cs).filter (Html.hasTagIn tags)

/-- `elem.find_all("tr")` on a table element. -/
def trRows (t : Html) : List Html := Html.findAll ["tr"] t

/-- `row.find_all(['td', 'th'])` mapped through `get_text`: the cell texts
of one table row. -/
def cellsOf (r : Html) : List String :=
  (Html.findAll ["td", "th"] r).map Html.getText

/-- The table grid built by the external document builder:
`rows`×`cols` cells stored row-major, all initially empty. -/
structure TableGrid where
  rows : Nat
  cols : Nat
  cells : List String
deriving DecidableEq

/-- Modelled from the spec: the external document builder's
`table.cell(i, j)` lookup, missing from `src/` (it belongs to the
document-object library). It resolves `(i, j)` to the flat row-major index
`j + i*cols` into the cell list; an index at or past the end is a failure
(the spec calls the mismatch outcome "misalign or truncate"). -/
def setFlat (cells : List String) (idx : Nat) (v : String) :
    Except Unit (List String) :=
  if idx < cells.length then Except.ok (cells.set idx v) else Except.error ()

/-- The inner loop `for j, col in enumerate(cols): table.cell(i, j).text = ...`
(app.py lines 137-139) for one row `r`, starting at column `j`. -/
def fillRowAux (nCols i : Nat) : Nat → List String → List String →
    Except Unit (List String)
  | _, cells, [] => Except.ok cells
  | j, cells, v :: vs =>
      match setFlat cells (j + i * nCols) v with
      | Except.ok cells2 => fillRowAux nCols i (j + 1) cells2 vs
      | Except.error e => Except.error e

/-- The outer loop `for i, row in enumerate(rows)` (app.py lines 136-139),
starting at row `i`. -/
def fillRows (nCols : Nat) : Nat → List String → List (List String) →
    Except Unit (List String)
  | _, cells, [] => Except.ok cells
  | i, cells, r :: rs =>
      match fillRowAux nCols i 0 cells r with
      | Except.ok cells2 => fillRows nCols (i + 1) cells2 rs
      | Except.error e => Except.error e

/-- The `table` branch of `markdown_to_docx` (app.py lines 132-139):
`rows = elem.find_all("tr")`; a grid of `len(rows)` rows and
`len(rows[0].find_all(['td','th']))` columns; each cell text assigned
positionally. A table without any `tr` fails at `rows[0]` (IndexError). -/
def buildTable (t : Html) : Except Unit TableGrid :=
  match trRows t with
  | [] => Except.error ()
  | r0 :: rest =>
      let nRows := (r0 :: rest).length
      let nCols := (cellsOf r0).length
      (fillRows nCols 0 (List.replicate (nRows * nCols) "")
          ((r0 :: rest).map cellsOf)).map
        (fun cs => ⟨nRows, nCols, cs⟩)

/-- A block of the produced word-processor document. -/
inductive Block where
  | heading (level : Nat) (text : String)
  | para (text : String)
  | table (grid : TableGrid)
deriving DecidableEq

/-- The dispatch on `elem.name` inside `markdown_to_docx`'s walk
(app.py lines 121-139): the blocks one visited node contributes. -/
def processNode (n : Html) : Except Unit (List Block) :=
  match n with
  | Html.text _ => Except.ok []
  | Html.elem tag cs =>
      if tag = "h1" then Except.ok [Block.heading 1 (Html.getTextList cs)]
      else if tag = "h2" then Except.ok [Block.heading 2 (Html.getTextList cs)]
      else if tag = "h3" then Except.ok [Block.heading 3 (Html.getTextList cs)]
      else if tag = "p" then Except.ok [Block.para (Html.getTextList cs)]
      else if tag = "li" then
        Except.ok [Block.para ("• " ++ Html.getTextList cs)]
      else if tag = "table" then
        (buildTable (Html.elem tag cs)).map (fun g => [Block.table g])
      else Except.ok []

/-- The walk `for elem in soup.descendants` over an already-enumerated node
list, concatenating each node's contribution in order; the first raised
error aborts the conversion, as an uncaught Python exception would. -/
def docxBlocks : List Html → Except Unit (List Block)
  | [] => Except.ok []
  | n :: ns =>
      match processNode n with
      | Except.error e => Except.error e
      | Except.ok b =>
          match docxBlocks ns with
          | Except.error e => Except.error e
          | Except.ok rest => Except.ok (b ++ rest)

/-- `markdown_to_docx` (app.py lines 116-141) downstream of the external
Markdown-to-HTML renderer: its input is the renderer's parsed output, a
forest of HTML nodes, and it walks all their descendants in document order. -/
def markdown_to_docx (nodes : List Html) : Except Unit (List Block) :=
  docxBlocks (Html.descList nodes)

instance {ε α : Type} [DecidableEq ε] [DecidableEq α] :
    DecidableEq (Except ε α) := fun a b =>
  match a, b with
  | Except.ok x, Except.ok y =>
      if h : x = y then Decidable.isTrue (by rw [h])
      else Decidable.isFalse (by simp [h])
  | Except.error x, Except.error y =>
      if h : x = y then Decidable.isTrue (by rw [h])
      else Decidable.isFalse (by simp [h])
  | Except.ok _, Except.error _ => Decidable.isFalse (by simp)
  | Except.error _, Except.ok _ => Decidable.isFalse (by simp)

/-- What the `download_essay` handler returns (app.py lines 202-218):
either a plain-text body or a `send_file` attachment. -/
inductive DownloadResponse where
  | notice (text : String)
  | attachment (download_name : String) (mimetype : String)
      (doc : Except Unit (List Block))

/-- The `download_essay` handler (app.py lines 202-218). `render` stands for
the external Markdown-to-HTML rendering + parsing step that the real
`markdown_to_docx` performs before its tree walk. -/
def download_essay (st : AppState) (render : String → List Html) :
    DownloadResponse :=
  let md_text := st.latest_essay
  if md_text = "" then
    DownloadResponse.notice "No essay available. Generate one first."
  else
    DownloadResponse.attachment "essay.docx"
      "application/vnd.openxmlformats-officedocument.wordprocessingml.document"
      (markdown_to_docx (render md_text))

/-- Whether a response is a file attachment. -/
def DownloadResponse.isAttachment : DownloadResponse → Bool
  | DownloadResponse.attachment _ _ _ => true
  | DownloadResponse.notice _ => false

/-- `Modelled from the spec:` the external Markdown-to-HTML renderer's
output for the input `# Title` — a single `h1` element whose text is
`Title` (attributes, which the walk never reads, are not modelled). -/
def renderedHashTitle : List Html := [Html.elem "h1" [Html.text "Title"]]

/-- Refinement-side definition, following the spec's words only: a history
"consists of whole user/assistant pairs" when it is a sequence of
(user, assistant) exchanges. -/
def historyIsWholePairs : List Msg → Bool
  | [] => true
  | u :: a :: rest =>
      u.role = "user" && a.role = "assistant" && historyIsWholePairs rest
  | _ :: [] => false

/-- A trivial rendering oracle used to instantiate witnesses. -/
def demoRender : String → List Html := fun _ => []

/-- One `td` cell holding one text node. -/
def tdCell (s : String) : Html := Html.elem "td" [Html.text s]

/-- One `tr` row of `td` cells. -/
def trRow (ss : List String) : Html := Html.elem "tr" (ss.map tdCell)

/-- A table whose second row has one more cell than its first row. -/
def mismatchTable : Html :=
  Html.elem "table" [trRow ["a", "b"], trRow ["c", "d", "e"]]

/-- A table whose rows all have the first row's cell count. -/
def uniformTable : Html :=
  Html.elem "table" [trRow ["a", "b"], trRow ["c", "d"]]

/-- A table whose second row has fewer cells than its first row. -/
def shortRowTable : Html :=
  Html.elem "table" [trRow ["a", "b", "c"], trRow ["d", "e"]]

/-- A row padded on the right with empty cells up to the grid width: the
shape one grid row takes when the assignments stay in range. -/
def padRow (nCols : Nat) (r : List String) : List String :=
  r ++ List.replicate (nCols - r.length) ""

theorem dequeAppend_length (n : Nat) (buf : List Msg) (m : Msg) :
    (dequeAppend n buf m).length = min (buf.length + 1) n := by
  unfold dequeAppend
  split
  · next h =>
      simp only [List.length_drop, List.length_append, List.length_cons,
        List.length_nil] at h ⊢
      omega
  · next h =>
      simp only [List.length_append, List.length_cons, List.length_nil] at h ⊢
      omega

/-- C1: the conversation history lives in a `deque(maxlen=5)`, so a
generation cycle (which appends 2 messages) can never leave more than 5
entries; starting from an empty history, 3 cycles append 6 messages, which
is over the 5-entry cap, so exactly `if 6 ≤ 5 then 6 else 5 = 5` entries
remain. -/
theorem C1_history_bound :
    (∀ (buf : List Msg) (t e : String), (generateStep buf t e).length ≤ 5)
    ∧ ∀ t1 e1 t2 e2 t3 e3 : String,
        (generateStep (generateStep (generateStep [] t1 e1) t2 e2) t3 e3).length
          = if 6 ≤ 5 then 6 else 5 := by
  constructor
  · intro buf t e
    simp only [generateStep, dequeAppend_length]
    omega
  · intro t1 e1 t2 e2 t3 e3
    simp only [generateStep, dequeAppend_length, List.length_nil]
    decide

/-- C2 counterexample: starting from an empty history, after 3 generation
cycles the buffer holds 5 messages beginning with an UNPAIRED assistant
message — the deque evicted the single oldest message, not the oldest
pair, so the history does not consist of whole user/assistant pairs. -/
theorem C2_counterexample :
    generateStep (generateStep (generateStep [] "t1" "e1") "t2" "e2") "t3" "e3"
      = [mkAssistant "e1", mkUser "t2", mkAssistant "e2",
         mkUser "t3", mkAssistant "e3"]
    ∧ historyIsWholePairs
        (generateStep (generateStep (generateStep [] "t1" "e1") "t2" "e2")
          "t3" "e3")
      = false := by
  constructor
  · decide
  · decide

/-- C2 (amended): each successful generation appends the
(user topic, assistant essay) pair on the right, and when the 5-message
cap is exceeded the oldest individual messages are evicted one at a time
(`deque(maxlen=5)` drops single entries, not whole pairs), so a saturated
history holds 5 messages and need not consist of whole pairs. -/
theorem C2_pair_appended_oldest_messages_evicted (buf : List Msg)
    (t e : String) (h : buf.length ≤ 5) :
    generateStep buf t e
      = (buf ++ [mkUser t, mkAssistant e]).drop
          (buf.length + 2 - min (buf.length + 2) 5) := by
  rcases buf with _ | ⟨a1, _ | ⟨a2, _ | ⟨a3, _ | ⟨a4, _ | ⟨a5, rest⟩⟩⟩⟩⟩
  · rfl
  · rfl
  · rfl
  · rfl
  · rfl
  · rcases rest with _ | ⟨a6, rest⟩
    · rfl
    · simp only [List.length_cons] at h
      omega

/-- Witness for C2 (amended): a 4-message history plus one generated pair
loses exactly its single oldest message. -/
theorem C2_pair_appended_oldest_messages_evicted_witness :
    ([mkUser "a", mkAssistant "b", mkUser "c", mkAssistant "d"] :
        List Msg).length ≤ 5
    ∧ generateStep [mkUser "a", mkAssistant "b", mkUser "c", mkAssistant "d"]
          "t" "e"
        = ([mkUser "a", mkAssistant "b", mkUser "c", mkAssistant "d"]
            ++ [mkUser "t", mkAssistant "e"]).drop 1 :=
  ⟨by decide,
   C2_pair_appended_oldest_messages_evicted
     [mkUser "a", mkAssistant "b", mkUser "c", mkAssistant "d"] "t" "e"
     (by decide)⟩

/-- C3 counterexample: uploading `notes.txt` (unsupported extension) over
an empty document state leaves the content absent, but the filename IS
recorded — `uploaded_document["filename"] = file.filename` runs outside
the extension branch, so the claim that the filename is not set is false. -/
theorem C3_counterexample :
    (uploadStep ⟨none, none⟩ (some "notes.txt") "P" "D").content = none
    ∧ (uploadStep ⟨none, none⟩ (some "notes.txt") "P" "D").filename
        = some "notes.txt"
    ∧ ¬ (uploadStep ⟨none, none⟩ (some "notes.txt") "P" "D").filename = none := by
  refine ⟨by decide, by decide, by decide⟩

/-- C3 (amended): for every uploaded file whose non-empty name ends
(case-insensitively) in neither `.pdf` nor `.docx`, no extraction is
performed and the stored content becomes absent (`None`), but the filename
IS set to the upload's filename, whatever the previous state was. -/
theorem C3_unsupported_extension_sets_filename (st : UploadedDocument)
    (f epdf edocx : String) (hne : f ≠ "")
    (hpdf : strEndsWith (strLower f) ".pdf" = false)
    (hdocx : strEndsWith (strLower f) ".docx" = false) :
    uploadStep st (some f) epdf edocx = ⟨none, some f⟩ := by
  simp [uploadStep, hne, hpdf, hdocx]

/-- Witness for C3 (amended) at the upload `notes.txt`. -/
theorem C3_unsupported_extension_sets_filename_witness :
    ("notes.txt" ≠ "")
    ∧ strEndsWith (strLower "notes.txt") ".pdf" = false
    ∧ strEndsWith (strLower "notes.txt") ".docx" = false
    ∧ uploadStep ⟨some "old", some "old.pdf"⟩ (some "notes.txt") "P" "D"
        = ⟨none, some "notes.txt"⟩ :=
  ⟨by decide, by decide, by decide,
   C3_unsupported_extension_sets_filename ⟨some "old", some "old.pdf"⟩
     "notes.txt" "P" "D" (by decide) (by decide) (by decide)⟩

/-- C4: `remove_file` clears both fields of the uploaded document and the
whole conversation buffer, leaves the latest essay untouched, and a
download right afterwards still returns that essay converted, as the
`essay.docx` attachment. -/
theorem C4_remove_file_frame (st : AppState) (render : String → List Html)
    (h : st.latest_essay ≠ "") :
    (remove_file st).uploaded_document = ⟨none, none⟩
    ∧ (remove_file st).conversation_buffer = []
    ∧ (remove_file st).latest_essay = st.latest_essay
    ∧ download_essay (remove_file st) render
        = DownloadResponse.attachment "essay.docx"
            "application/vnd.openxmlformats-officedocument.wordprocessingml.document"
            (markdown_to_docx (render st.latest_essay)) := by
  refine ⟨rfl, rfl, rfl, ?_⟩
  simp [download_essay, remove_file, h]

/-- Witness for C4 at a concrete populated state. -/
theorem C4_remove_file_frame_witness :
    ("# T" ≠ "")
    ∧ (remove_file ⟨[mkUser "t", mkAssistant "e"], "# T",
          ⟨some "doc", some "f.pdf"⟩⟩).uploaded_document = ⟨none, none⟩
    ∧ (remove_file ⟨[mkUser "t", mkAssistant "e"], "# T",
          ⟨some "doc", some "f.pdf"⟩⟩).conversation_buffer = []
    ∧ (remove_file ⟨[mkUser "t", mkAssistant "e"], "# T",
          ⟨some "doc", some "f.pdf"⟩⟩).latest_essay = "# T"
    ∧ download_essay (remove_file ⟨[mkUser "t", mkAssistant "e"], "# T",
          ⟨some "doc", some "f.pdf"⟩⟩) demoRender
        = DownloadResponse.attachment "essay.docx"
            "application/vnd.openxmlformats-officedocument.wordprocessingml.document"
            (markdown_to_docx (demoRender "# T")) :=
  ⟨by decide,
   C4_remove_file_frame ⟨[mkUser "t", mkAssistant "e"], "# T",
     ⟨some "doc", some "f.pdf"⟩⟩ demoRender (by decide)⟩

/-- C5: with no essay generated yet (`latest_essay` empty) the download
route returns exactly the plain text notice and no attachment; otherwise
it returns the converted essay as an attachment named `essay.docx` with
the standard word-processor MIME type. -/
theorem C5_download_response (st : AppState) (render : String → List Html) :
    (st.latest_essay = "" →
      download_essay st render
          = DownloadResponse.notice "No essay available. Generate one first."
        ∧ (download_essay st render).isAttachment = false)
    ∧ (st.latest_essay ≠ "" →
      download_essay st render
          = DownloadResponse.attachment "essay.docx"
              "application/vnd.openxmlformats-officedocument.wordprocessingml.document"
              (markdown_to_docx (render st.latest_essay))
        ∧ (download_essay st render).isAttachment = true) := by
  constructor
  · intro h
    refine ⟨by simp [download_essay, h], ?_⟩
    simp [download_essay, h, DownloadResponse.isAttachment]
  · intro h
    refine ⟨by simp [download_essay, h], ?_⟩
    simp [download_essay, h, DownloadResponse.isAttachment]

/-- Witness for C5 on an empty and a non-empty latest essay. -/
theorem C5_download_response_witness :
    download_essay ⟨[], "", ⟨none, none⟩⟩ demoRender
        = DownloadResponse.notice "No essay available. Generate one first."
    ∧ download_essay ⟨[], "# T", ⟨none, none⟩⟩ demoRender
        = DownloadResponse.attachment "essay.docx"
            "application/vnd.openxmlformats-officedocument.wordprocessingml.document"
            (markdown_to_docx (demoRender "# T")) :=
  ⟨((C5_download_response ⟨[], "", ⟨none, none⟩⟩ demoRender).1 rfl).1,
   ((C5_download_response ⟨[], "# T", ⟨none, none⟩⟩ demoRender).2
      (by decide)).1⟩

/-- C8: the message list sent to the completion API is the fixed system
instruction, then the conversation history in order, then — with document
content present — the document-context message followed by the
"Write an essay on: {topic}" user message, or — without it — one user
message holding the topic alone. -/
theorem C8_message_list_order (buffer : List Msg) (topic : String) :
    buildMessages buffer topic none
        = system_message :: buffer ++ [mkUser topic]
    ∧ ∀ d : String, d ≠ "" →
        buildMessages buffer topic (some d)
          = system_message :: buffer
              ++ [mkUser ("[DOCUMENT CONTENT]\n" ++ d),
                  mkUser ("Write an essay on: " ++ topic)] := by
  constructor
  · rfl
  · intro d hd
    simp [buildMessages, hd]

/-- Witness for C8 at a concrete history, topic and document. -/
theorem C8_message_list_order_witness :
    ("doc text" ≠ "")
    ∧ buildMessages [mkUser "t0", mkAssistant "e0"] "cats" none
        = system_message :: [mkUser "t0", mkAssistant "e0"]
            ++ [mkUser "cats"]
    ∧ buildMessages [mkUser "t0", mkAssistant "e0"] "cats" (some "doc text")
        = system_message :: [mkUser "t0", mkAssistant "e0"]
            ++ [mkUser ("[DOCUMENT CONTENT]\n" ++ "doc text"),
                mkUser ("Write an essay on: " ++ "cats")] :=
  ⟨by decide,
   (C8_message_list_order [mkUser "t0", mkAssistant "e0"] "cats").1,
   (C8_message_list_order [mkUser "t0", mkAssistant "e0"] "cats").2
     "doc text" (by decide)⟩

/-- C10: an upload with any non-empty filename overwrites both fields of
the uploaded-document state regardless of what was stored before (the
result does not depend on the prior state); with an unsupported extension
the content becomes `None`, so the generation of that request builds its
messages exactly as if no document were stored. -/
theorem C10_upload_overwrites_state (st st2 : UploadedDocument)
    (f epdf edocx : String) (hne : f ≠ "") :
    uploadStep st (some f) epdf edocx = uploadStep st2 (some f) epdf edocx
    ∧ (uploadStep st (some f) epdf edocx).filename = some f
    ∧ (strEndsWith (strLower f) ".pdf" = false →
       strEndsWith (strLower f) ".docx" = false →
       (uploadStep st (some f) epdf edocx).content = none
       ∧ ∀ (buffer : List Msg) (topic : String),
           buildMessages buffer topic
               (genDocArg (uploadStep st (some f) epdf edocx))
             = buildMessages buffer topic none) := by
  refine ⟨by simp [uploadStep, hne], by simp [uploadStep, hne],
    fun hp hd => ⟨?_, ?_⟩⟩
  · simp [uploadStep, hne, hp, hd]
  · intro buffer topic
    simp [uploadStep, hne, hp, hd, genDocArg]

/-- Witness for C10: uploading `notes.txt` over a stored document. -/
theorem C10_upload_overwrites_state_witness :
    uploadStep ⟨some "old", some "old.pdf"⟩ (some "notes.txt") "P" "D"
        = uploadStep ⟨none, none⟩ (some "notes.txt") "P" "D"
    ∧ (uploadStep ⟨some "old", some "old.pdf"⟩ (some "notes.txt") "P" "D").content
        = none
    ∧ buildMessages [] "cats"
          (genDocArg
            (uploadStep ⟨some "old", some "old.pdf"⟩ (some "notes.txt") "P" "D"))
        = buildMessages [] "cats" none :=
  ⟨(C10_upload_overwrites_state ⟨some "old", some "old.pdf"⟩ ⟨none, none⟩
      "notes.txt" "P" "D" (by decide)).1,
   ((C10_upload_overwrites_state ⟨some "old", some "old.pdf"⟩ ⟨none, none⟩
      "notes.txt" "P" "D" (by decide)).2.2 (by decide) (by decide)).1,
   ((C10_upload_overwrites_state ⟨some "old", some "old.pdf"⟩ ⟨none, none⟩
      "notes.txt" "P" "D" (by decide)).2.2 (by decide) (by decide)).2 [] "cats"⟩

/-- C6: the renderer's output for `# Title` converts to a single level-1
heading block with text `Title`, and in general an `h1`/`h2`/`h3` element
over a text node becomes a heading block at level 1/2/3 with that text. -/
theorem C6_markdown_heading_levels :
    markdown_to_docx renderedHashTitle = Except.ok [Block.heading 1 "Title"]
    ∧ ∀ s : String,
        markdown_to_docx [Html.elem "h1" [Html.text s]]
            = Except.ok [Block.heading 1 s]
        ∧ markdown_to_docx [Html.elem "h2" [Html.text s]]
            = Except.ok [Block.heading 2 s]
        ∧ markdown_to_docx [Html.elem "h3" [Html.text s]]
            = Except.ok [Block.heading 3 s] := by
  refine ⟨by decide, fun s => ⟨?_, ?_, ?_⟩⟩ <;>
  · simp only [markdown_to_docx, docxBlocks, Html.descList,
      Html.selfAndDescendants, processNode, Html.getTextList, Html.getText,
      String.append_empty, List.append_nil]
    rfl

theorem set_len_append (pre suf : List String) (w v : String) :
    (pre ++ w :: suf).set pre.length v = pre ++ v :: suf := by
  induction pre with
  | nil => rfl
  | cons a l ih => simp [ih]

theorem setFlat_at (pre suf : List String) (w v : String) :
    setFlat (pre ++ w :: suf) pre.length v = Except.ok (pre ++ v :: suf) := by
  have h : pre.length < (pre ++ w :: suf).length := by
    simp
  simp only [setFlat, if_pos h, set_len_append]

theorem fillRowAux_spec (nCols i : Nat) (r : List String) :
    ∀ (j : Nat) (pre suf : List String),
      pre.length = j + i * nCols → j + r.length ≤ nCols →
      fillRowAux nCols i j (pre ++ (List.replicate (nCols - j) "" ++ suf)) r
        = Except.ok
            (pre ++ (r ++ (List.replicate (nCols - (j + r.length)) "" ++ suf))) := by
  induction r with
  | nil =>
      intro j pre suf hpre hle
      simp [fillRowAux]
  | cons v vs ih =>
      intro j pre suf hpre hle
      have hle2 : (j + 1) + vs.length ≤ nCols := by
        simp only [List.length_cons] at hle; omega
      have hrep : List.replicate (nCols - j) ("" : String)
          = "" :: List.replicate (nCols - (j + 1)) "" := by
        have h9 : nCols - j = (nCols - (j + 1)) + 1 := by omega
        rw [h9, List.replicate_succ]
      rw [hrep]
      show fillRowAux nCols i j
          (pre ++ "" :: (List.replicate (nCols - (j + 1)) "" ++ suf)) (v :: vs) = _
      simp only [fillRowAux, ← hpre, setFlat_at]
      have hmove : pre ++ v :: (List.replicate (nCols - (j + 1)) "" ++ suf)
          = (pre ++ [v]) ++ (List.replicate (nCols - (j + 1)) "" ++ suf) := by
        simp
      rw [hmove, ih (j + 1) (pre ++ [v]) suf (by simp [hpre]; omega) hle2]
      simp [List.length_cons]
      omega

theorem fillRows_spec (nCols : Nat) (rows : List (List String)) :
    ∀ (i : Nat) (pre : List String),
      pre.length = i * nCols → (∀ r ∈ rows, r.length ≤ nCols) →
      fillRows nCols i (pre ++ List.replicate (rows.length * nCols) "") rows
        = Except.ok (pre ++ rows.flatMap (padRow nCols)) := by
  induction rows with
  | nil =>
      intro i pre hpre hall
      simp [fillRows]
  | cons r rs ih =>
      intro i pre hpre hall
      have hr : r.length ≤ nCols := hall r (List.mem_cons_self r rs)
      have hsplit : List.replicate ((r :: rs).length * nCols) ("" : String)
          = List.replicate (nCols - 0) ""
              ++ List.replicate (rs.length * nCols) "" := by
        rw [← List.replicate_add]
        congr 1
        simp [List.length_cons]
        ring
      rw [hsplit]
      simp only [fillRows]
      rw [fillRowAux_spec nCols i r 0 pre (List.replicate (rs.length * nCols) "")
        (by simpa using hpre) (by simpa using hr)]
      have hshape : pre ++ (r ++ (List.replicate (nCols - (0 + r.length)) "" ++
            List.replicate (rs.length * nCols) ""))
          = (pre ++ padRow nCols r) ++ List.replicate (rs.length * nCols) "" := by
        simp [padRow, List.append_assoc]
      rw [hshape]
      show fillRows nCols (i + 1)
          ((pre ++ padRow nCols r) ++ List.replicate (rs.length * nCols) "") rs = _
      rw [ih (i + 1) (pre ++ padRow nCols r)
        (by simp [padRow, hpre, Nat.succ_mul]; omega)
        (fun x hx => hall x (List.mem_cons_of_mem r hx))]
      simp [List.flatMap_cons, List.append_assoc]

theorem buildTable_spec (t : Html) (r0 : Html) (rest : List Html)
    (htr : trRows t = r0 :: rest)
    (hall : ∀ r ∈ trRows t, (cellsOf r).length ≤ (cellsOf r0).length) :
    buildTable t
      = Except.ok ⟨(trRows t).length, (cellsOf r0).length,
          ((trRows t).map cellsOf).flatMap (padRow (cellsOf r0).length)⟩ := by
  have hall2 : ∀ rr ∈ (r0 :: rest).map cellsOf,
      rr.length ≤ (cellsOf r0).length := by
    intro rr hrr
    rcases List.mem_map.mp hrr with ⟨x, hx, rfl⟩
    exact hall x (htr ▸ hx)
  have hfill := fillRows_spec (cellsOf r0).length ((r0 :: rest).map cellsOf)
    0 [] (by simp) hall2
  simp only [List.nil_append, List.length_map] at hfill
  unfold buildTable
  rw [htr]
  show Except.map
      (fun cs => TableGrid.mk (r0 :: rest).length (cellsOf r0).length cs)
      (fillRows (cellsOf r0).length 0
        (List.replicate ((r0 :: rest).length * (cellsOf r0).length) "")
        (List.map cellsOf (r0 :: rest))) = _
  rw [hfill]
  rfl

theorem padRow_getElem_lt (nCols : Nat) (r : List String) (j : Nat)
    (hj : j < r.length) : (padRow nCols r)[j]? = some (r.get ⟨j, hj⟩) := by
  unfold padRow
  rw [List.getElem?_append_left hj, List.getElem?_eq_getElem hj]
  simp

theorem padRow_getElem_pad (nCols : Nat) (r : List String) (j : Nat)
    (h1 : r.length ≤ j) (h2 : j < nCols) : (padRow nCols r)[j]? = some "" := by
  unfold padRow
  rw [List.getElem?_append_right h1]
  rw [List.getElem?_replicate]
  simp
  omega

theorem flatMap_padRow_getElem (nCols : Nat) :
    ∀ (rows : List (List String)) (i j : Nat) (hi : i < rows.length),
      (∀ r ∈ rows, r.length ≤ nCols) → j < nCols →
      (rows.flatMap (padRow nCols))[j + i * nCols]?
        = (padRow nCols (rows.get ⟨i, hi⟩))[j]? := by
  intro rows
  induction rows with
  | nil => intro i j hi; exact absurd hi (by simp)
  | cons r rs ih =>
      intro i j hi hall hj
      have hlen : (padRow nCols r).length = nCols := by
        have := hall r (List.mem_cons_self r rs)
        simp [padRow]
        omega
      cases i with
      | zero =>
          simp only [List.flatMap_cons, Nat.zero_mul, Nat.add_zero]
          rw [List.getElem?_append_left (by omega)]
          rfl
      | succ i2 =>
          simp only [List.flatMap_cons]
          rw [List.getElem?_append_right (by rw [hlen]; simp [Nat.succ_mul]; omega)]
          have hidx : j + (i2 + 1) * nCols - (padRow nCols r).length
              = j + i2 * nCols := by
            rw [hlen]
            simp [Nat.succ_mul]
            omega
          rw [hidx, ih i2 j (by simpa using hi)
            (fun x hx => hall x (List.mem_cons_of_mem r hx)) hj]
          rfl

/-- C7 counterexample: on a table whose second row has one cell more than
its first row, the conversion raises (the flat cell index runs past the
end of the grid's cell list), so no grid with positionally copied cells is
emitted at all — the universal positional-copy claim fails here. -/
theorem C7_counterexample :
    markdown_to_docx [mismatchTable] = Except.error ()
    ∧ buildTable mismatchTable = Except.error () := by
  exact ⟨by decide, by decide⟩

/-- C7 (amended): for every table in which no row has more cells than the
first row, the emitted grid has as many rows as the table has `tr` rows
and as many columns as the first row has cells, and each cell's text is
copied to the same (row, column) position it occupies in the source. -/
theorem C7_table_positional_copy (t : Html) (r0 : Html) (rest : List Html)
    (htr : trRows t = r0 :: rest)
    (hall : ∀ r ∈ trRows t, (cellsOf r).length ≤ (cellsOf r0).length) :
    buildTable t
      = Except.ok ⟨(trRows t).length, (cellsOf r0).length,
          ((trRows t).map cellsOf).flatMap (padRow (cellsOf r0).length)⟩
    ∧ ∀ (i j : Nat) (hi : i < (trRows t).length)
        (hj : j < (cellsOf ((trRows t).get ⟨i, hi⟩)).length),
        (((trRows t).map cellsOf).flatMap
            (padRow (cellsOf r0).length))[j + i * (cellsOf r0).length]?
          = some ((cellsOf ((trRows t).get ⟨i, hi⟩)).get ⟨j, hj⟩) := by
  refine ⟨buildTable_spec t r0 rest htr hall, ?_⟩
  intro i j hi hj
  have hallm : ∀ rr ∈ (trRows t).map cellsOf,
      rr.length ≤ (cellsOf r0).length := by
    intro rr hrr
    rcases List.mem_map.mp hrr with ⟨x, hx, rfl⟩
    exact hall x hx
  have hj2 : j < (cellsOf r0).length :=
    lt_of_lt_of_le hj (hall _ (List.get_mem (trRows t) i hi))
  rw [flatMap_padRow_getElem (cellsOf r0).length ((trRows t).map cellsOf)
    i j (by simpa using hi) hallm hj2]
  have hget : ((trRows t).map cellsOf).get ⟨i, by simpa using hi⟩
      = cellsOf ((trRows t).get ⟨i, hi⟩) := by
    simp [List.get_eq_getElem, List.getElem_map]
  rw [hget]
  exact padRow_getElem_lt _ _ j hj

/-- Witness for C7 (amended) on a uniform 2×2 table: the grid and the
positional placement of the cell `c` at row 1, column 0. -/
theorem C7_table_positional_copy_witness :
    buildTable uniformTable
        = Except.ok ⟨2, 2, ["a", "b", "c", "d"]⟩
    ∧ (((trRows uniformTable).map cellsOf).flatMap
          (padRow (cellsOf (trRow ["a", "b"])).length))[0 + 1 * 2]?
        = some "c" :=
  ⟨(C7_table_positional_copy uniformTable (trRow ["a", "b"]) [trRow ["c", "d"]]
      rfl
      (by
        intro r hr
        have h0 : trRows uniformTable
            = [trRow ["a", "b"], trRow ["c", "d"]] := rfl
        rw [h0] at hr
        simp only [List.mem_cons, List.not_mem_nil, or_false] at hr
        rcases hr with rfl | rfl
        · decide
        · decide)).1,
   (C7_table_positional_copy uniformTable (trRow ["a", "b"]) [trRow ["c", "d"]]
      rfl
      (by
        intro r hr
        have h0 : trRows uniformTable
            = [trRow ["a", "b"], trRow ["c", "d"]] := rfl
        rw [h0] at hr
        simp only [List.mem_cons, List.not_mem_nil, or_false] at hr
        rcases hr with rfl | rfl
        · decide
        · decide)).2 1 0 (by decide) (by decide)⟩

/-- C9: a non-first row with strictly more cells than the first row drives
the flat cell index past the cell list (the error branch of the lookup is
reachable: a concrete such table makes the build fail), while a table
whose rows never exceed the first row's cell count builds successfully
and every trailing position of a shorter row stays the empty string. -/
theorem C9_column_mismatch_behavior :
    buildTable (Html.elem "table" [trRow ["a"], trRow ["b", "c"]])
        = Except.error ()
    ∧ ∀ (t : Html) (r0 : Html) (rest : List Html),
        trRows t = r0 :: rest →
        (∀ r ∈ trRows t, (cellsOf r).length ≤ (cellsOf r0).length) →
        buildTable t
            = Except.ok ⟨(trRows t).length, (cellsOf r0).length,
                ((trRows t).map cellsOf).flatMap (padRow (cellsOf r0).length)⟩
          ∧ ∀ (i j : Nat) (hi : i < (trRows t).length),
              (cellsOf ((trRows t).get ⟨i, hi⟩)).length ≤ j →
              j < (cellsOf r0).length →
              (((trRows t).map cellsOf).flatMap
                  (padRow (cellsOf r0).length))[j + i * (cellsOf r0).length]?
                = some "" := by
  refine ⟨by decide, ?_⟩
  intro t r0 rest htr hall
  refine ⟨buildTable_spec t r0 rest htr hall, ?_⟩
  intro i j hi hlow hj2
  have hallm : ∀ rr ∈ (trRows t).map cellsOf,
      rr.length ≤ (cellsOf r0).length := by
    intro rr hrr
    rcases List.mem_map.mp hrr with ⟨x, hx, rfl⟩
    exact hall x hx
  rw [flatMap_padRow_getElem (cellsOf r0).length ((trRows t).map cellsOf)
    i j (by simpa using hi) hallm hj2]
  have hget : ((trRows t).map cellsOf).get ⟨i, by simpa using hi⟩
      = cellsOf ((trRows t).get ⟨i, hi⟩) := by
    simp [List.get_eq_getElem, List.getElem_map]
  rw [hget]
  exact padRow_getElem_pad _ _ j hlow hj2

/-- Witness for C9 on a table with a 3-cell first row and a 2-cell second
row: the build succeeds and the trailing cell (1, 2) is empty. -/
theorem C9_column_mismatch_behavior_witness :
    buildTable shortRowTable
        = Except.ok ⟨2, 3, ["a", "b", "c", "d", "e", ""]⟩
    ∧ (((trRows shortRowTable).map cellsOf).flatMap
          (padRow (cellsOf (trRow ["a", "b", "c"])).length))[2 + 1 * 3]?
        = some "" :=
  ⟨(C9_column_mismatch_behavior.2 shortRowTable (trRow ["a", "b", "c"])
      [trRow ["d", "e"]] rfl
      (by
        intro r hr
        have h0 : trRows shortRowTable
            = [trRow ["a", "b", "c"], trRow ["d", "e"]] := rfl
        rw [h0] at hr
        simp only [List.mem_cons, List.not_mem_nil, or_false] at hr
        rcases hr with rfl | rfl
        · decide
        · decide)).1,
   (C9_column_mismatch_behavior.2 shortRowTable (trRow ["a", "b", "c"])
      [trRow ["d", "e"]] rfl
      (by
        intro r hr
        have h0 : trRows shortRowTable
            = [trRow ["a", "b", "c"], trRow ["d", "e"]] := rfl
        rw [h0] at hr
        simp only [List.mem_cons, List.not_mem_nil, or_false] at hr
        rcases hr with rfl | rfl
        · decide
        · decide)).2 1 2 (by decide) (by decide) (by decide)⟩
